import Mathlib

/-!
Verification of the BlumClicker screen-automation agent
(`core/clicker/blum.py`).

The core is embedded shallowly:

* an image snapshot is a `(width, height)` pair together with a total
  window-relative pixel function (`PIL.Image.getpixel` on in-bounds
  coordinates);
* the four detectors (`collect_green`, `collect_freeze`, `collect_dog`,
  `collect_button`) are translated loop-for-loop from the source; the
  pointer side effect (`mouse.move` + `mouse.click`) is modelled by
  returning the absolute point that would be clicked (`none` = no click);
* `collect_button` reads pixels whose in-boundedness is not guaranteed by
  its loop ranges, so its pixel reads go through a bounds-checked
  `getpixel` and the function returns in `Except`, the error carrying the
  out-of-bounds coordinate (Python raises `IndexError` there);
* the per-tick body of `BlumClicker.run` and the surrounding loop are
  embedded as trace-producing functions over an environment supplying the
  external collaborators (window locator, rectangle, capture, key polls);
* the pause/debounce behaviour of `handle_input` is embedded twice: its
  pure flag transition (used by the loop) and a timed poll model in which
  a recognized transition advances the clock by the debounce interval
  (the cooperative `await asyncio.sleep(0.2)`), while a non-transition
  poll advances it by an arbitrary poll gap.
-/

namespace Blum

/-- An RGB colour sample, one `Nat` per channel (each channel is in
`[0, 255]` in practice; no arithmetic here can overflow, so plain `Nat`
is used). -/
structure Color where
  r : Nat
  g : Nat
  b : Nat
deriving DecidableEq

/-- An image snapshot: a size and a total window-relative pixel function.
`pix` models `PIL.Image.getpixel` on in-bounds coordinates; accesses that
may be out of bounds are routed through `getpixel` below. -/
structure Image where
  width : Nat
  height : Nat
  pix : Nat → Nat → Color

/-- The target window's bounding rectangle; the source only ever reads
`rect[0]` and `rect[1]` (the origin). -/
structure Rect where
  x : Int
  y : Int
  w : Int
  h : Int
deriving DecidableEq

/-- Bounds-checked pixel read: `PIL.Image.getpixel`, which raises
`IndexError` outside the image; the error carries the offending
coordinate. -/
def getpixel (screen : Image) (x y : Nat) : Except (Nat × Nat) Color :=
  if x < screen.width ∧ y < screen.height then .ok (screen.pix x y)
  else .error (x, y)

/-- `range(0, n, 20)`: the multiples of 20 below `n`, in increasing
order. -/
def gridList (n : Nat) : List Nat :=
  (List.range ((n + 19) / 20)).map (fun k => k * 20)

/-- Inner loop of the coarse-grid scan shared by `collect_green` and
`collect_freeze`: for a fixed column `x`, try the sampled `y`s in order,
returning the first `(x, y)` whose pixel satisfies the detector's
per-pixel classifier `f`. -/
def gridScanCol (f : Nat → Nat → Bool) (x : Nat) : List Nat → Option (Nat × Nat)
  | [] => none
  | y :: ys => if f x y then some (x, y) else gridScanCol f x ys

/-- Outer loop of the coarse-grid scan: `for x, y in
product(range(0, width, 20), range(0, height, 20))` — `itertools.product`
iterates its first argument slowest, so `x` is the outer loop and `y` the
inner one. -/
def gridScan (f : Nat → Nat → Bool) (ys : List Nat) : List Nat → Option (Nat × Nat)
  | [] => none
  | x :: xs =>
    match gridScanCol f x ys with
    | some p => some p
    | none => gridScan f ys xs

/-- `greenish_range = (b < 125) and (102 <= r < 220) and (200 <= g < 255)`
from `collect_green`. -/
def greenishRange (c : Color) : Bool :=
  decide (c.b < 125) && (decide (102 ≤ c.r) && decide (c.r < 220))
    && (decide (200 ≤ c.g) && decide (c.g < 255))

/-- `avoid_color = (196, 247, 94)` from `collect_green`. -/
def avoidColor : Nat × Nat × Nat := (196, 247, 94)

/-- Per-pixel classifier of `collect_green`: the loop body first skips the
avoid colour (`continue`, i.e. not a match) and otherwise matches exactly
when `greenish_range` holds. -/
def greenPixelMatch (c : Color) : Bool :=
  if (c.r, c.g, c.b) = avoidColor then false else greenishRange c

/-- Per-pixel classifier of `collect_freeze`:
`blueish_range = (215 < b < 255) and (100 <= r < 166) and (220 <= g < 254)`. -/
def freezePixelMatch (c : Color) : Bool :=
  (decide (215 < c.b) && decide (c.b < 255))
    && (decide (100 ≤ c.r) && decide (c.r < 166))
    && (decide (220 ≤ c.g) && decide (c.g < 254))

/-- `BlumClicker.collect_green`, window-relative part: the coarse-grid
scan returning the first matching sampled point `(x, y)`. -/
def collect_green_rel (screen : Image) : Option (Nat × Nat) :=
  gridScan (fun x y => greenPixelMatch (screen.pix x y))
    (gridList screen.height) (gridList screen.width)

/-- `BlumClicker.collect_green`: on a match the source moves the pointer
to `(rect[0] + x, rect[1] + y)` and clicks; the click target is returned
(`none` = found nothing, no click). -/
def collect_green (screen : Image) (rect : Rect) : Option (Int × Int) :=
  (collect_green_rel screen).map fun q => (rect.x + q.1, rect.y + q.2)

/-- `BlumClicker.collect_freeze`, window-relative part. -/
def collect_freeze_rel (screen : Image) : Option (Nat × Nat) :=
  gridScan (fun x y => freezePixelMatch (screen.pix x y))
    (gridList screen.height) (gridList screen.width)

/-- `BlumClicker.collect_freeze`: click target `(rect[0] + x, rect[1] + y)`
of the first blueish sampled point. -/
def collect_freeze (screen : Image) (rect : Rect) : Option (Int × Int) :=
  (collect_freeze_rel screen).map fun q => (rect.x + q.1, rect.y + q.2)

/-- A connected near-white region as delivered by the external OpenCV
pipeline in `collect_dog` (`cvtColor` → `inRange` → `findContours`):
its `cv2.contourArea` and its `cv2.boundingRect` `(x, y, w, h)`.  The
pipeline itself is an external library call; the source's own logic
(the area filter and the click-point computation) consumes this data. -/
structure Contour where
  area : Nat
  x : Nat
  y : Nat
  w : Nat
  h : Nat
deriving DecidableEq

/-- `BlumClicker.collect_dog`, window-relative part: the `for contour in
contours` loop — keep the first contour whose area satisfies
`500 < area < 3000` and report the centre of its bounding box
`(x + w // 2, y + h // 2)`. -/
def collect_dog_rel : List Contour → Option (Nat × Nat)
  | [] => none
  | c :: cs =>
    if 500 < c.area ∧ c.area < 3000 then some (c.x + c.w / 2, c.y + c.h / 2)
    else collect_dog_rel cs

/-- `BlumClicker.collect_dog`: click target
`(rect[0] + x + w // 2, rect[1] + y + h // 2)` of the first accepted
contour. -/
def collect_dog (contours : List Contour) (rect : Rect) : Option (Int × Int) :=
  (collect_dog_rel contours).map fun q => (rect.x + q.1, rect.y + q.2)

/-- `button_color = (255, 255, 255)` from `collect_button`. -/
def buttonColor : Color := ⟨255, 255, 255⟩

/-- `text_color = (0, 0, 0)` from `collect_button`. -/
def textColor : Color := ⟨0, 0, 0⟩

/-- `search_area_start_y = int(height * 0.75)`; `height * 0.75` is exact
in floating point, so this is `⌊3·height/4⌋`. -/
def searchStart (height : Nat) : Nat := height * 3 / 4

/-- `range(1, 10)`: the offsets of the run-of-10 check in
`collect_button`. -/
def buttonOffsets : List Nat := (List.range 9).map (fun k => 1 + k)

/-- The generator of `collect_button`'s `all(...)` run check: read the
pixels `(x, y + o)` for the offsets in order, stopping at the first
non-white one; a read outside the image raises (`.error`), exactly as
`getpixel` does in Python, and only if every previous offset was white. -/
def whiteRun (screen : Image) (x y : Nat) : List Nat → Except (Nat × Nat) Bool
  | [] => .ok true
  | o :: os =>
    match getpixel screen x (y + o) with
    | .error e => .error e
    | .ok c => if c = buttonColor then whiteRun screen x y os else .ok false

/-- The body of `collect_button`'s inner loop at a single pixel `(x, y)`
(the loops guarantee `x < width` and `y < height` at every call site):
white pixel, run-of-10 check, then the horizontal-neighbour check
`(x < width - 1 and pixel(x+1, y) == black) or (x > 0 and
pixel(x-1, y) == black)` — the neighbour reads are in bounds because of
the short-circuit guards. -/
def buttonAt (screen : Image) (x y : Nat) : Except (Nat × Nat) Bool :=
  if screen.pix x y = buttonColor then
    match whiteRun screen x y buttonOffsets with
    | .error e => .error e
    | .ok true =>
      .ok ((decide (x < screen.width - 1) && decide (screen.pix (x + 1) y = textColor))
        || (decide (0 < x) && decide (screen.pix (x - 1) y = textColor)))
    | .ok false => .ok false
  else .ok false

/-- Inner (`x`) loop of `collect_button` over one row `y`: first hit wins
(`break`), an exception propagates. -/
def buttonRow (screen : Image) (y : Nat) : List Nat → Except (Nat × Nat) (Option Nat)
  | [] => .ok none
  | x :: xs =>
    match buttonAt screen x y with
    | .error e => .error e
    | .ok true => .ok (some x)
    | .ok false => buttonRow screen y xs

/-- Outer (`y`) loop of `collect_button`: on a hit in a row both loops
terminate (`button_found` + `break`). -/
def buttonSearch (screen : Image) : List Nat → Except (Nat × Nat) (Option (Nat × Nat))
  | [] => .ok none
  | y :: ys =>
    match buttonRow screen y (List.range screen.width) with
    | .error e => .error e
    | .ok (some x) => .ok (some (x, y))
    | .ok none => buttonSearch screen ys

/-- `range(search_area_start_y, height)`: the rows of the searched bottom
quarter. -/
def buttonRows (height : Nat) : List Nat :=
  (List.range (height - searchStart height)).map (fun k => searchStart height + k)

/-- `BlumClicker.collect_button`, window-relative part: returns the first
hit `(x, y)` of the row-major scan of the bottom quarter, or the
coordinate of an out-of-bounds pixel read (`IndexError`). -/
def collect_button_rel (screen : Image) : Except (Nat × Nat) (Option (Nat × Nat)) :=
  buttonSearch screen (buttonRows screen.height)

/-- `BlumClicker.collect_button`: on a hit the source clicks
`(rect[0] + x + 10, rect[1] + y + 5)`. -/
def collect_button (screen : Image) (rect : Rect) : Except (Nat × Nat) (Option (Int × Int)) :=
  match collect_button_rel screen with
  | .error e => .error e
  | .ok none => .ok none
  | .ok (some (x, y)) => .ok (some (rect.x + (x + 10 : Nat), rect.y + (y + 5 : Nat)))

/-- The four detectors, for labelling orchestrator events. -/
inductive Det where
  | green
  | freeze
  | dog
  | button
deriving DecidableEq

/-- Observable events of one run of the orchestrator: a screenshot
capture, the invocation of a detector, a pointer action (move + click) at
an absolute point, and log lines at info/error level (identified by their
localization keys). -/
inductive Event where
  | capture
  | call (d : Det)
  | click (p : Int × Int)
  | logInfo (key : String)
  | logError (key : String)
deriving DecidableEq

/-- The pointer action a detector performs when it finds its target. -/
def clickEvts : Option (Int × Int) → List Event
  | none => []
  | some p => [Event.click p]

/-- The environment a tick runs in: the located window (its title), the
rectangle and screenshot the external adapters deliver, the contours the
external OpenCV pipeline extracts from that screenshot, and the
`COLLECT_DOGS` configuration flag. -/
structure Env where
  window : Option String
  rect : Rect
  screenshot : Image
  contours : List Contour
  collectDogs : Bool

/-- Step 5 of the tick: `if get_config_value("COLLECT_DOGS"):
self.collect_dog(screenshot, rect)`. -/
def tickDog (env : Env) : List Event :=
  if env.collectDogs then
    [Event.call Det.dog] ++ clickEvts (collect_dog env.contours env.rect)
  else []

/-- Step 6 of the tick: `if not is_green: self.collect_button(screenshot,
rect)`; the Boolean records whether the call raised (out-of-bounds pixel
read), which aborts the loop. -/
def tickBtn (env : Env) (g : Option (Int × Int)) : List Event × Bool :=
  if g.isSome then ([], false)
  else
    match collect_button env.screenshot env.rect with
    | .ok o => ([Event.call Det.button] ++ clickEvts o, false)
    | .error _ => ([Event.call Det.button], true)

/-- One Active tick of `BlumClicker.run`'s loop body (after
`handle_input` returned `False`): capture, `is_green =
collect_green(...)`, `collect_freeze(...)` unconditionally, optionally
`collect_dog`, and `collect_button` only when `is_green` is false.  The
Boolean is true when the tick raised. -/
def tick (env : Env) : List Event × Bool :=
  let g := collect_green env.screenshot env.rect
  ([Event.capture, Event.call Det.green] ++ clickEvts g
      ++ ([Event.call Det.freeze] ++ clickEvts (collect_freeze env.screenshot env.rect))
      ++ tickDog env ++ (tickBtn env g).1,
    (tickBtn env g).2)

/-- The pure pause-flag transition of `BlumClicker.handle_input`:
`if is_pressed("s") and paused: paused = False`
`elif is_pressed("p"): paused = not paused`. -/
def inputStep (sHeld pHeld paused : Bool) : Bool :=
  if sHeld && paused then false
  else if pHeld then !paused
  else paused

/-- The log lines `handle_input` emits alongside a transition. -/
def inputLogs (sHeld pHeld paused : Bool) : List Event :=
  if sHeld && paused then [Event.logInfo "PRESS_P_TO_PAUSE"]
  else if pHeld then
    [Event.logInfo (if !paused then "PROGRAM_PAUSED" else "PROGRAM_RESUMED")]
  else []

/-- The `while True` loop of `BlumClicker.run`, driven by one key-poll
pair `(sHeld, pHeld)` per iteration (the loop is infinite; finite input
lists model finite prefixes of a run).  Each iteration first runs
`handle_input`; if the updated flag is paused the iteration `continue`s,
otherwise the tick body runs; a tick that raises ends the loop with the
error flag set (the exception propagates to `run`'s `except`). -/
def loopRun (env : Env) : Bool → List (Bool × Bool) → List Event × Bool
  | _, [] => ([], false)
  | paused, (s, p) :: rest =>
    let paused1 := inputStep s p paused
    let logs := inputLogs s p paused
    if paused1 then
      let k := loopRun env paused1 rest
      (logs ++ k.1, k.2)
    else
      let t := tick env
      if t.2 then (logs ++ t.1, true)
      else
        let k := loopRun env paused1 rest
        (logs ++ t.1 ++ k.1, k.2)

/-- `BlumClicker.run`: locate the window (`absent` ⇒ log
`WINDOW_NOT_FOUND` at error level and return), otherwise log the three
startup lines and enter the loop with `paused = True`; an exception
escaping the loop is caught by the outer `except` and logged as
`WINDOW_CLOSED`. -/
def run (env : Env) (inputs : List (Bool × Bool)) : List Event :=
  match env.window with
  | none => [Event.logError "WINDOW_NOT_FOUND"]
  | some title =>
    let header := [Event.logInfo "CLICKER_INITIALIZED", Event.logInfo title,
      Event.logInfo "PRESS_S_TO_START"]
    let k := loopRun env true inputs
    header ++ k.1 ++ (if k.2 then [Event.logError "WINDOW_CLOSED"] else [])

/-- The debounce interval of `handle_input` (`await asyncio.sleep(0.2)`),
in milliseconds. -/
def debounceMs : Nat := 200

/-- Key state as a function of time (milliseconds): the external
`keyboard.is_pressed` for the start key `"s"` and the toggle key `"p"`. -/
structure KeyTrace where
  sAt : Nat → Bool
  pAt : Nat → Bool

/-- State of the timed poll model: the pause flag and the current time.
The clock only moves inside `handle_input` calls, which is faithful to
the cooperative single-threaded loop: nothing else runs while a call is
suspended in its debounce sleep, and no key state is sampled then. -/
structure PollState where
  paused : Bool
  time : Nat
deriving DecidableEq

/-- One timed call of `handle_input`: sample the keys at the current
time, apply the flag transition, and advance the clock by the debounce
interval when a transition branch was taken (the branch condition is
`(s and paused) or p`), else by the caller's poll gap. -/
def pollOnce (k : KeyTrace) (gap : Nat) (st : PollState) : PollState :=
  { paused := inputStep (k.sAt st.time) (k.pAt st.time) st.paused,
    time := st.time
      + (if (k.sAt st.time && st.paused) || k.pAt st.time then debounceMs else gap) }

/-- The state before the `n`-th timed poll. -/
def stateAt (k : KeyTrace) (gap : Nat) (st0 : PollState) : Nat → PollState
  | 0 => st0
  | n + 1 => pollOnce k gap (stateAt k gap st0 n)

/-- Whether the `n`-th timed poll flips the pause flag. -/
def flipAt (k : KeyTrace) (gap : Nat) (st0 : PollState) (n : Nat) : Bool :=
  (stateAt k gap st0 (n + 1)).paused != (stateAt k gap st0 n).paused

/-! ### Concrete test inputs -/

/-- A 40×40 snapshot with green-marker pixels at the sampled grid points
`(0, 20)` and `(20, 0)` and black elsewhere; used to exhibit the scan
order (column-major, `x` outer). -/
def exGridImg : Image :=
  ⟨40, 40, fun x y =>
    if (x = 0 ∧ y = 20) ∨ (x = 20 ∧ y = 0) then ⟨110, 210, 100⟩ else ⟨0, 0, 0⟩⟩

/-- A 400×300 snapshot whose only green-marker pixel is at `(20, 40)`;
used for the spec's coordinate-mapping example with
`rect = (100, 50, 400, 300)`. -/
def exImgC2 : Image :=
  ⟨400, 300, fun x y => if x = 20 ∧ y = 40 then ⟨110, 210, 100⟩ else ⟨0, 0, 0⟩⟩

/-- The example rectangle `(100, 50, 400, 300)` of the coordinate-mapping
property. -/
def exRectC2 : Rect := ⟨100, 50, 400, 300⟩

/-- A snapshot every pixel of which is the excluded colour
`(196, 247, 94)`. -/
def exImgAvoid : Image := ⟨40, 40, fun _ _ => ⟨196, 247, 94⟩⟩

/-- A 1×4 all-white snapshot: the bottom-quarter scan starts at row 3 and
the run-of-10 check immediately reads row 4, outside the image. -/
def exImgShort : Image := ⟨1, 4, fun _ _ => ⟨255, 255, 255⟩⟩

/-- A 5×40 snapshot whose last column (`x = 4`) is pure white and whose
other pixels are pure black: the button detector hits at `(4, 30)` and
reports relative `(4 + 10, 30 + 5)`, whose x-coordinate `14` is outside
`[0, width) = [0, 5)`. -/
def exImgEdge : Image :=
  ⟨5, 40, fun x _ => if x = 4 then ⟨255, 255, 255⟩ else ⟨0, 0, 0⟩⟩

/-- The rectangle used with `exImgEdge`. -/
def exRectEdge : Rect := ⟨100, 50, 5, 40⟩

/-- A 3×40 snapshot: column 1 pure white, column 0 pure black, column 2
grey `(100, 100, 100)`.  The button detector hits at `(1, 30)` via the
`x - 1` neighbour even though `x = 1` is not the last column and the
`x + 1` neighbour is not black. -/
def exImgMid : Image :=
  ⟨3, 40, fun x _ =>
    if x = 1 then ⟨255, 255, 255⟩ else if x = 0 then ⟨0, 0, 0⟩ else ⟨100, 100, 100⟩⟩

/-- A 2×40 snapshot with a vertical run of only 9 white pixels at
`(1, 30)..(1, 38)` next to the all-black column 0: one white pixel short
of the required 10, so the button detector finds nothing. -/
def exImgNine : Image :=
  ⟨2, 40, fun x y =>
    if x = 1 ∧ 30 ≤ y ∧ y ≤ 38 then ⟨255, 255, 255⟩ else ⟨0, 0, 0⟩⟩

/-- A 40×40 snapshot with a green-marker pixel at grid point `(0, 0)` and
a freeze-marker pixel at grid point `(20, 0)`: both detectors find a
match on the same snapshot. -/
def exImgBoth : Image :=
  ⟨40, 40, fun x y =>
    if x = 0 ∧ y = 0 then ⟨110, 210, 100⟩
    else if x = 20 ∧ y = 0 then ⟨110, 230, 230⟩
    else ⟨0, 0, 0⟩⟩

/-- An environment whose snapshot is `exImgBoth` (dog collection off). -/
def exEnvBoth : Env := ⟨some "TelegramDesktop", ⟨0, 0, 40, 40⟩, exImgBoth, [], false⟩

/-- A key trace with the toggle key `"p"` held at every instant and the
start key `"s"` never pressed. -/
def exKeys : KeyTrace := ⟨fun _ => false, fun _ => true⟩

/-- Whether an event is a pointer action. -/
def isClick : Event → Bool
  | Event.click _ => true
  | _ => false

/-- The number of pointer actions in an event list. -/
def clickCount (evs : List Event) : Nat :=
  evs.countP isClick

/-- The number of pointer actions a single detector result causes. -/
def optClicks (o : Option (Int × Int)) : Nat :=
  match o with
  | some _ => 1
  | none => 0

/-- The number of pointer actions the button detector causes (none when
it raises). -/
def btnClicks (r : Except (Nat × Nat) (Option (Int × Int))) : Nat :=
  match r with
  | .ok o => optClicks o
  | .error _ => 0

/-- Acceptance predicate of `collect_dog`'s area filter. -/
def dogAccept (c : Contour) : Bool :=
  decide (500 < c.area) && decide (c.area < 3000)

/-! ### Helper lemmas about the coarse-grid scan -/

theorem mem_gridList {n x : Nat} : x ∈ gridList n ↔ 20 ∣ x ∧ x < n := by
  unfold gridList
  simp only [List.mem_map, List.mem_range]
  constructor
  · rintro ⟨k, hk, rfl⟩
    refine ⟨⟨k, (Nat.mul_comm k 20).symm ▸ rfl⟩, ?_⟩
    have h2 : k + 1 ≤ (n + 19) / 20 := hk
    have := (Nat.le_div_iff_mul_le (by omega : 0 < 20)).mp h2
    omega
  · rintro ⟨⟨k, rfl⟩, hlt⟩
    refine ⟨k, ?_, by omega⟩
    have : (k + 1) * 20 ≤ n + 19 := by omega
    have := (Nat.le_div_iff_mul_le (by omega : 0 < 20)).mpr this
    omega

theorem gridList_pairwise (n : Nat) : (gridList n).Pairwise (· < ·) := by
  unfold gridList
  exact (List.pairwise_lt_range ((n + 19) / 20)).map _ (fun a b h => by omega)

theorem gridScanCol_eq_some {f : Nat → Nat → Bool} {x : Nat} {ys : List Nat}
    {p : Nat × Nat} (hys : ys.Pairwise (· < ·)) (h : gridScanCol f x ys = some p) :
    p.1 = x ∧ p.2 ∈ ys ∧ f x p.2 = true ∧ ∀ y ∈ ys, f x y = true → p.2 ≤ y := by
  induction ys with
  | nil => simp [gridScanCol] at h
  | cons y ys ih =>
    rw [gridScanCol] at h
    rcases List.pairwise_cons.mp hys with ⟨hlt, htail⟩
    by_cases hf : f x y
    · rw [if_pos hf] at h
      cases h
      refine ⟨rfl, List.mem_cons_self .., hf, ?_⟩
      intro z hz _
      rcases List.mem_cons.mp hz with rfl | hz
      · exact le_refl _
      · exact Nat.le_of_lt (hlt z hz)
    · rw [if_neg hf] at h
      rcases ih htail h with ⟨h1, h2, h3, h4⟩
      refine ⟨h1, List.mem_cons_of_mem _ h2, h3, ?_⟩
      intro z hz hfz
      rcases List.mem_cons.mp hz with rfl | hz
      · exact absurd hfz hf
      · exact h4 z hz hfz

theorem gridScanCol_eq_none {f : Nat → Nat → Bool} {x : Nat} {ys : List Nat}
    (h : gridScanCol f x ys = none) : ∀ y ∈ ys, f x y = false := by
  induction ys with
  | nil => intro y hy; simp at hy
  | cons y ys ih =>
    rw [gridScanCol] at h
    by_cases hf : f x y
    · rw [if_pos hf] at h; cases h
    · rw [if_neg hf] at h
      intro z hz
      rcases List.mem_cons.mp hz with rfl | hz
      · exact Bool.eq_false_iff.mpr hf
      · exact ih h z hz

theorem gridScan_eq_some {f : Nat → Nat → Bool} {ys xs : List Nat} {p : Nat × Nat}
    (hxs : xs.Pairwise (· < ·)) (hys : ys.Pairwise (· < ·))
    (h : gridScan f ys xs = some p) :
    p.1 ∈ xs ∧ p.2 ∈ ys ∧ f p.1 p.2 = true ∧
      ∀ x ∈ xs, ∀ y ∈ ys, f x y = true → p.1 < x ∨ (p.1 = x ∧ p.2 ≤ y) := by
  induction xs with
  | nil => simp [gridScan] at h
  | cons x xs ih =>
    rw [gridScan] at h
    rcases List.pairwise_cons.mp hxs with ⟨hlt, htail⟩
    cases hcol : gridScanCol f x ys with
    | some q =>
      rw [hcol] at h
      cases h
      rcases gridScanCol_eq_some hys hcol with ⟨h1, h2, h3, h4⟩
      refine ⟨h1 ▸ List.mem_cons_self .., h2, h1 ▸ h3, ?_⟩
      intro x' hx' y' hy' hf
      rcases List.mem_cons.mp hx' with rfl | hx'
      · exact Or.inr ⟨h1, h4 y' hy' hf⟩
      · exact Or.inl (h1 ▸ hlt x' hx')
    | none =>
      rw [hcol] at h
      rcases ih htail h with ⟨h1, h2, h3, h4⟩
      refine ⟨List.mem_cons_of_mem _ h1, h2, h3, ?_⟩
      intro x' hx' y' hy' hf
      rcases List.mem_cons.mp hx' with rfl | hx'
      · exact absurd hf (by simp [gridScanCol_eq_none hcol y' hy'])
      · exact h4 x' hx' y' hy' hf

theorem gridScanCol_eq_none_of {f : Nat → Nat → Bool} {x : Nat} {ys : List Nat}
    (hf : ∀ x y, f x y = false) : gridScanCol f x ys = none := by
  induction ys with
  | nil => rfl
  | cons y ys ihy => rw [gridScanCol, hf, if_neg (by simp)]; exact ihy

theorem gridScan_eq_none_of {f : Nat → Nat → Bool} {ys xs : List Nat}
    (hf : ∀ x y, f x y = false) : gridScan f ys xs = none := by
  induction xs with
  | nil => rfl
  | cons x xs ih =>
    rw [gridScan, gridScanCol_eq_none_of hf]
    exact ih

/-- The characterization of `collect_green_rel`'s result: the reported
point is a sampled grid point (both coordinates multiples of 20, inside
the image), its pixel matches, and it is lexicographically least — first
in `x`, then in `y` — among all matching sampled grid points (the scan is
column-major: `x` is the outer loop). -/
theorem collect_green_rel_charact {screen : Image} {p : Nat × Nat}
    (h : collect_green_rel screen = some p) :
    20 ∣ p.1 ∧ 20 ∣ p.2 ∧ p.1 < screen.width ∧ p.2 < screen.height ∧
      greenPixelMatch (screen.pix p.1 p.2) = true ∧
      ∀ x y, 20 ∣ x → x < screen.width → 20 ∣ y → y < screen.height →
        greenPixelMatch (screen.pix x y) = true →
        p.1 < x ∨ (p.1 = x ∧ p.2 ≤ y) := by
  rcases gridScan_eq_some (gridList_pairwise screen.width)
      (gridList_pairwise screen.height) h with ⟨h1, h2, h3, h4⟩
  rcases mem_gridList.mp h1 with ⟨hd1, hl1⟩
  rcases mem_gridList.mp h2 with ⟨hd2, hl2⟩
  refine ⟨hd1, hd2, hl1, hl2, h3, ?_⟩
  intro x y hdx hx hdy hy hm
  exact h4 x (mem_gridList.mpr ⟨hdx, hx⟩) y (mem_gridList.mpr ⟨hdy, hy⟩) hm

/-! ### Helper lemmas about the bottom-button scan -/

theorem whiteRun_eq_ok_true {screen : Image} {x y : Nat} {os : List Nat}
    (h : whiteRun screen x y os = .ok true) :
    ∀ o ∈ os, x < screen.width ∧ y + o < screen.height ∧
      screen.pix x (y + o) = buttonColor := by
  induction os with
  | nil => intro o ho; simp at ho
  | cons o os ih =>
    rw [whiteRun] at h
    split at h
    · exact absurd h (by simp)
    · rename_i c heq
      by_cases hw : c = buttonColor
      · rw [if_pos hw] at h
        have hb : x < screen.width ∧ y + o < screen.height ∧
            screen.pix x (y + o) = buttonColor := by
          unfold getpixel at heq
          split at heq
          · rename_i hin
            exact ⟨hin.1, hin.2, (Except.ok.inj heq).trans hw⟩
          · exact absurd heq (by simp)
        intro o' ho'
        rcases List.mem_cons.mp ho' with rfl | ho'
        · exact hb
        · exact ih h o' ho'
      · rw [if_neg hw] at h
        exact absurd h (by simp)

theorem mem_buttonOffsets {o : Nat} : o ∈ buttonOffsets ↔ 1 ≤ o ∧ o ≤ 9 := by
  unfold buttonOffsets
  simp only [List.mem_map, List.mem_range]
  constructor
  · rintro ⟨k, hk, rfl⟩; omega
  · rintro ⟨h1, h2⟩; exact ⟨o - 1, by omega, by omega⟩

theorem buttonAt_eq_ok_true {screen : Image} {x y : Nat}
    (h : buttonAt screen x y = .ok true) :
    screen.pix x y = buttonColor ∧
      (∀ o, 1 ≤ o → o ≤ 9 → x < screen.width ∧ y + o < screen.height ∧
        screen.pix x (y + o) = buttonColor) ∧
      ((x < screen.width - 1 ∧ screen.pix (x + 1) y = textColor) ∨
        (0 < x ∧ screen.pix (x - 1) y = textColor)) := by
  unfold buttonAt at h
  by_cases hw : screen.pix x y = buttonColor
  · rw [if_pos hw] at h
    split at h
    · exact absurd h (by simp)
    · rename_i heq
      have hb := Except.ok.inj h
      simp only [Bool.or_eq_true, Bool.and_eq_true, decide_eq_true_eq] at hb
      exact ⟨hw, fun o h1 h2 =>
        whiteRun_eq_ok_true heq o (mem_buttonOffsets.mpr ⟨h1, h2⟩), hb⟩
    · exact absurd h (by simp)
  · rw [if_neg hw] at h
    exact absurd h (by simp)

theorem buttonRow_eq_ok_some {screen : Image} {y : Nat} {xs : List Nat} {x : Nat}
    (h : buttonRow screen y xs = .ok (some x)) :
    x ∈ xs ∧ buttonAt screen x y = .ok true := by
  induction xs with
  | nil => simp [buttonRow] at h
  | cons x' xs ih =>
    rw [buttonRow] at h
    split at h
    · exact absurd h (by simp)
    · rename_i heq
      cases Option.some.inj (Except.ok.inj h)
      exact ⟨List.mem_cons_self .., heq⟩
    · rcases ih h with ⟨h1, h2⟩
      exact ⟨List.mem_cons_of_mem _ h1, h2⟩

theorem buttonSearch_eq_ok_some {screen : Image} {ys : List Nat} {x y : Nat}
    (h : buttonSearch screen ys = .ok (some (x, y))) :
    y ∈ ys ∧ buttonRow screen y (List.range screen.width) = .ok (some x) := by
  induction ys with
  | nil => simp [buttonSearch] at h
  | cons y' ys ih =>
    rw [buttonSearch] at h
    split at h
    · exact absurd h (by simp)
    · rename_i x' heq
      cases Option.some.inj (Except.ok.inj h)
      exact ⟨List.mem_cons_self .., heq⟩
    · rcases ih h with ⟨h1, h2⟩
      exact ⟨List.mem_cons_of_mem _ h1, h2⟩

theorem mem_buttonRows {height y : Nat} (h : y ∈ buttonRows height) :
    searchStart height ≤ y ∧ y < height := by
  unfold buttonRows at h
  simp only [List.mem_map, List.mem_range] at h
  rcases h with ⟨k, hk, rfl⟩
  omega

/-- Soundness of the bottom-button scan: a reported hit `(x, y)` lies in
the searched bottom quarter, its pixel and the nine below it are pure
white (all in bounds), and Python's neighbour disjunction holds:
`x + 1` is black when `x` is not the last column, OR `x - 1` is black
when `x > 0`. -/
theorem collect_button_rel_sound {screen : Image} {x y : Nat}
    (h : collect_button_rel screen = .ok (some (x, y))) :
    searchStart screen.height ≤ y ∧ y < screen.height ∧ x < screen.width ∧
      screen.pix x y = buttonColor ∧
      (∀ o, 1 ≤ o → o ≤ 9 → y + o < screen.height ∧
        screen.pix x (y + o) = buttonColor) ∧
      ((x < screen.width - 1 ∧ screen.pix (x + 1) y = textColor) ∨
        (0 < x ∧ screen.pix (x - 1) y = textColor)) := by
  rcases buttonSearch_eq_ok_some h with ⟨hy, hrow⟩
  rcases buttonRow_eq_ok_some hrow with ⟨hx, hat⟩
  rcases mem_buttonRows hy with ⟨hy1, hy2⟩
  rcases buttonAt_eq_ok_true hat with ⟨h1, h2, h3⟩
  exact ⟨hy1, hy2, List.mem_range.mp hx, h1,
    fun o ho1 ho2 => ⟨(h2 o ho1 ho2).2.1, (h2 o ho1 ho2).2.2⟩, h3⟩

/-- Same characterization for `collect_freeze_rel`. -/
theorem collect_freeze_rel_charact {screen : Image} {p : Nat × Nat}
    (h : collect_freeze_rel screen = some p) :
    20 ∣ p.1 ∧ 20 ∣ p.2 ∧ p.1 < screen.width ∧ p.2 < screen.height ∧
      freezePixelMatch (screen.pix p.1 p.2) = true := by
  rcases gridScan_eq_some (gridList_pairwise screen.width)
      (gridList_pairwise screen.height) h with ⟨h1, h2, h3, _⟩
  rcases mem_gridList.mp h1 with ⟨hd1, hl1⟩
  rcases mem_gridList.mp h2 with ⟨hd2, hl2⟩
  exact ⟨hd1, hd2, hl1, hl2, h3⟩

/-- A reported face-shape point comes from a contour of the list that
passes the area filter, and is the centre of that contour's bounding
box. -/
theorem collect_dog_rel_eq_some {cs : List Contour} {q : Nat × Nat}
    (h : collect_dog_rel cs = some q) :
    ∃ c ∈ cs, (500 < c.area ∧ c.area < 3000) ∧ q = (c.x + c.w / 2, c.y + c.h / 2) := by
  induction cs with
  | nil => simp [collect_dog_rel] at h
  | cons c cs ih =>
    rw [collect_dog_rel] at h
    by_cases hc : 500 < c.area ∧ c.area < 3000
    · rw [if_pos hc] at h
      exact ⟨c, List.mem_cons_self .., hc, (Option.some.inj h).symm⟩
    · rw [if_neg hc] at h
      rcases ih h with ⟨c', hm, hcc, hq⟩
      exact ⟨c', List.mem_cons_of_mem _ hm, hcc, hq⟩

/-- A detector-invocation event never appears among the pointer-action
events of a detector result. -/
theorem call_not_mem_clickEvts (d : Det) (o : Option (Int × Int)) :
    Event.call d ∉ clickEvts o := by
  cases o <;> simp [clickEvts]

theorem clickEvts_none : clickEvts none = [] := rfl

theorem clickEvts_some (p : Int × Int) : clickEvts (some p) = [Event.click p] := rfl

theorem clickCount_nil : clickCount [] = 0 := rfl

theorem clickCount_append (l1 l2 : List Event) :
    clickCount (l1 ++ l2) = clickCount l1 + clickCount l2 := by
  simp [clickCount, List.countP_append]

theorem clickCount_capture_cons (l : List Event) :
    clickCount (Event.capture :: l) = clickCount l := by
  simp [clickCount, List.countP_cons, isClick]

theorem clickCount_call_cons (d : Det) (l : List Event) :
    clickCount (Event.call d :: l) = clickCount l := by
  simp [clickCount, List.countP_cons, isClick]

theorem clickCount_clickEvts (o : Option (Int × Int)) :
    clickCount (clickEvts o) = optClicks o := by
  cases o <;> rfl

theorem clickCount_tickDog (env : Env) :
    clickCount (tickDog env) =
      if env.collectDogs then optClicks (collect_dog env.contours env.rect) else 0 := by
  unfold tickDog
  by_cases hd : env.collectDogs
  · simp [hd, clickCount_append, clickCount_call_cons, clickCount_clickEvts,
      clickCount_nil]
  · rw [if_neg hd, if_neg hd]
    rfl

theorem clickCount_tickBtn (env : Env) (g : Option (Int × Int)) :
    clickCount (tickBtn env g).1 =
      if g.isSome then 0 else btnClicks (collect_button env.screenshot env.rect) := by
  unfold tickBtn
  by_cases hg : g.isSome
  · rw [if_pos hg, if_pos hg]
    rfl
  · rw [if_neg hg, if_neg hg]
    cases hb : collect_button env.screenshot env.rect with
    | ok o =>
      simp [btnClicks, clickCount_append, clickCount_call_cons, clickCount_clickEvts,
        clickCount_nil]
    | error e => rfl

theorem optClicks_le_one (o : Option (Int × Int)) : optClicks o ≤ 1 := by
  cases o <;> simp [optClicks]

theorem btnClicks_le_one (r : Except (Nat × Nat) (Option (Int × Int))) :
    btnClicks r ≤ 1 := by
  cases r with
  | ok o => exact optClicks_le_one o
  | error e => exact Nat.zero_le 1

theorem inputStep_ne_iff (s p q : Bool) :
    inputStep s p q ≠ q ↔ ((s && q) || p) = true := by
  cases s <;> cases p <;> cases q <;> simp [inputStep]

theorem pollOnce_time_of_flip {k : KeyTrace} {gap : Nat} {st : PollState}
    (h : (pollOnce k gap st).paused ≠ st.paused) :
    (pollOnce k gap st).time = st.time + debounceMs := by
  simp only [pollOnce] at h ⊢
  rw [if_pos ((inputStep_ne_iff ..).mp h)]

theorem pollOnce_time_le (k : KeyTrace) (gap : Nat) (st : PollState) :
    st.time ≤ (pollOnce k gap st).time :=
  Nat.le_add_right ..

theorem stateAt_time_mono (k : KeyTrace) (gap : Nat) (st0 : PollState)
    {i j : Nat} (h : i ≤ j) :
    (stateAt k gap st0 i).time ≤ (stateAt k gap st0 j).time := by
  induction j with
  | zero =>
    cases Nat.le_zero.mp h
    exact Nat.le_refl _
  | succ j ih =>
    rcases Nat.eq_or_lt_of_le h with rfl | hlt
    · exact Nat.le_refl _
    · exact Nat.le_trans (ih (Nat.lt_succ_iff.mp hlt)) (pollOnce_time_le ..)

/-! ### Claim theorems -/

/-- C1: on every Active tick the orchestrator invokes the freeze-marker
detector unconditionally, and invokes the bottom-button detector if and
only if the green-marker detector reported not-found on that tick; in
particular a green match suppresses the button detector. -/
theorem tick_runs_freeze_and_gates_button (env : Env) :
    Event.call Det.freeze ∈ (tick env).1 ∧
      (Event.call Det.button ∈ (tick env).1 ↔
        collect_green env.screenshot env.rect = none) := by
  constructor
  · simp [tick, List.mem_append]
  · cases hg : collect_green env.screenshot env.rect with
    | some p =>
      by_cases hd : env.collectDogs <;>
        simp [tick, tickBtn, tickDog, clickEvts_none, clickEvts_some, hg, hd,
          List.mem_append, call_not_mem_clickEvts]
    | none =>
      by_cases hd : env.collectDogs <;>
        cases hb : collect_button env.screenshot env.rect <;>
          simp [tick, tickBtn, tickDog, clickEvts_none, clickEvts_some, hg, hd, hb,
            List.mem_append, call_not_mem_clickEvts]

/-- C4: the green detector's per-pixel classifier matches exactly when
`b < 125`, `102 ≤ r < 220`, `200 ≤ g < 255` and the pixel is not the
excluded colour `(196, 247, 94)`; the excluded colour itself satisfies
the green-ish range yet never matches, and a snapshot consisting solely
of the excluded colour makes the detector return not-found. -/
theorem green_pixel_classification :
    (∀ c : Color, greenPixelMatch c = true ↔
      (c.b < 125 ∧ (102 ≤ c.r ∧ c.r < 220) ∧ (200 ≤ c.g ∧ c.g < 255) ∧
        (c.r, c.g, c.b) ≠ (196, 247, 94))) ∧
    greenPixelMatch ⟨196, 247, 94⟩ = false ∧
    greenishRange ⟨196, 247, 94⟩ = true ∧
    ∀ screen : Image, (∀ x y, screen.pix x y = ⟨196, 247, 94⟩) →
      collect_green_rel screen = none := by
  refine ⟨?_, by decide, by decide, ?_⟩
  · intro c
    unfold greenPixelMatch greenishRange avoidColor
    by_cases ha : (c.r, c.g, c.b) = (196, 247, 94)
    · rw [if_pos ha]
      simp [ha]
    · rw [if_neg ha]
      simp [ha, and_assoc]
  · intro screen hpix
    unfold collect_green_rel
    apply gridScan_eq_none_of
    intro x y
    rw [hpix x y]
    decide

/-- C4 witness: the all-excluded-colour snapshot yields not-found. -/
theorem green_pixel_classification_witness :
    collect_green_rel exImgAvoid = none :=
  green_pixel_classification.2.2.2 exImgAvoid (fun _ _ => rfl)

/-- C6: the face-shape detector accepts a region exactly when its area is
strictly between 500 and 3000 (areas 400 and 3500 rejected, 1000
accepted) and reports the absolute centre of the accepted region's
bounding box, `rect.origin + (boxX + boxW/2, boxY + boxH/2)`. -/
theorem dog_area_filter :
    (∀ c : Contour, dogAccept c = true ↔ (500 < c.area ∧ c.area < 3000)) ∧
    (∀ (rect : Rect) (c : Contour),
      collect_dog [c] rect =
        if dogAccept c then
          some (rect.x + (c.x + c.w / 2 : Nat), rect.y + (c.y + c.h / 2 : Nat))
        else none) ∧
    dogAccept ⟨400, 0, 0, 10, 40⟩ = false ∧
    dogAccept ⟨3500, 0, 0, 50, 70⟩ = false ∧
    dogAccept ⟨1000, 0, 0, 25, 40⟩ = true := by
  refine ⟨?_, ?_, by decide, by decide, by decide⟩
  · intro c
    simp [dogAccept]
  · intro rect c
    by_cases h1 : 500 < c.area <;> by_cases h2 : c.area < 3000 <;>
      simp [collect_dog, collect_dog_rel, dogAccept, h1, h2]

/-- C9: when the window locator returns absent, the run performs no
capture, no detector call and no pointer action, logs `WINDOW_NOT_FOUND`
at error level and returns normally (its whole trace is that one log
line). -/
theorem run_window_absent (rect : Rect) (screen : Image)
    (contours : List Contour) (dogs : Bool) (inputs : List (Bool × Bool)) :
    run ⟨none, rect, screen, contours, dogs⟩ inputs =
        [Event.logError "WINDOW_NOT_FOUND"] ∧
      Event.capture ∉ run ⟨none, rect, screen, contours, dogs⟩ inputs ∧
      (∀ d : Det, Event.call d ∉ run ⟨none, rect, screen, contours, dogs⟩ inputs) ∧
      ∀ p : Int × Int, Event.click p ∉ run ⟨none, rect, screen, contours, dogs⟩ inputs := by
  refine ⟨rfl, ?_, ?_, ?_⟩ <;> simp [run]

/-- C10: the bottom-button detector's pixel reads are not guaranteed
in-bounds: on the 1×4 all-white snapshot the scan starts at row 3
(inside the bottom quarter), finds a white pixel there and the run-of-10
check immediately reads pixel `(0, 4)`, one row below the image. -/
theorem button_reads_out_of_bounds :
    collect_button_rel exImgShort = .error (0, 4) ∧
      exImgShort.height ≤ 4 ∧
      searchStart exImgShort.height = 3 ∧
      exImgShort.pix 0 3 = buttonColor := by
  refine ⟨rfl, by decide, by decide, by decide⟩

/-- C3 (amended): the green detector samples only grid points whose
coordinates are both multiples of 20 and returns the first match in
COLUMN-major order — `x` advances in the outer loop (because
`itertools.product(range(0, w, 20), range(0, h, 20))` cycles its first
argument slowest), `y` in the inner one — so when two grid points both
match, the one with the smaller `x` (and, for equal `x`, the smaller
`y`) is reported. -/
theorem green_first_match_column_major {screen : Image} {p : Nat × Nat}
    (h : collect_green_rel screen = some p) :
    20 ∣ p.1 ∧ 20 ∣ p.2 ∧ p.1 < screen.width ∧ p.2 < screen.height ∧
      greenPixelMatch (screen.pix p.1 p.2) = true ∧
      ∀ x y, 20 ∣ x → x < screen.width → 20 ∣ y → y < screen.height →
        greenPixelMatch (screen.pix x y) = true →
        p.1 < x ∨ (p.1 = x ∧ p.2 ≤ y) :=
  collect_green_rel_charact h

/-- C3 witness: on `exGridImg` the detector reports the grid point
`(0, 20)`, which indeed is on the grid, in bounds and matching. -/
theorem green_first_match_column_major_witness :
    20 ∣ (0 : Nat) ∧ 20 ∣ (20 : Nat) ∧ (0 : Nat) < exGridImg.width ∧
      (20 : Nat) < exGridImg.height ∧ greenPixelMatch (exGridImg.pix 0 20) = true := by
  have H := @green_first_match_column_major exGridImg (0, 20) (by decide)
  exact ⟨H.1, H.2.1, H.2.2.1, H.2.2.2.1, H.2.2.2.2.1⟩

/-- C3 counterexample: on `exGridImg` the grid points `(0, 20)` and
`(20, 0)` both match; a row-major scan (y outer) would report `(20, 0)`
— the match with the strictly smaller `y` — but the code reports
`(0, 20)`. -/
theorem green_scan_order_counterexample :
    collect_green_rel exGridImg = some (0, 20) ∧
      greenPixelMatch (exGridImg.pix 20 0) = true ∧
      (20 : Nat) < exGridImg.width ∧ (0 : Nat) < exGridImg.height ∧
      20 ∣ (20 : Nat) ∧ 20 ∣ (0 : Nat) ∧
      ((0, 20) : Nat × Nat) ≠ (20, 0) ∧ (0 : Nat) < 20 := by
  refine ⟨rfl, by decide, by decide, by decide, by decide, by decide, by decide, by decide⟩

/-- C2 (amended): every reported click target is
`rect.origin + window_relative_point`; for the green and freeze
detectors the relative point is a sampled in-bounds pixel, and the
coordinate-mapping example holds (`rect = (100, 50, 400, 300)`, match at
relative `(20, 40)` ⇒ absolute `(120, 90)`); for the face detector the
relative point is an accepted contour's box centre, which lies inside
`[0, width) × [0, height)` under the external contract on
`cv2.boundingRect` that every contour's non-degenerate bounding box lies
within the captured image; for the button detector the relative point is
`(x + 10, y + 5)` where `(x, y)` is the hit — its `y + 5` stays inside
`[0, height)` but its `x + 10` is NOT guaranteed inside `[0, width)`
(see the counterexample). -/
theorem coord_mapping_amended :
    (∀ (screen : Image) (rect : Rect) (p : Int × Int),
      collect_green screen rect = some p →
      ∃ x y : Nat, x < screen.width ∧ y < screen.height ∧
        p = (rect.x + x, rect.y + y)) ∧
    (∀ (screen : Image) (rect : Rect) (p : Int × Int),
      collect_freeze screen rect = some p →
      ∃ x y : Nat, x < screen.width ∧ y < screen.height ∧
        p = (rect.x + x, rect.y + y)) ∧
    (∀ (contours : List Contour) (rect : Rect) (p : Int × Int),
      collect_dog contours rect = some p →
      ∃ c ∈ contours,
        p = (rect.x + (c.x + c.w / 2 : Nat), rect.y + (c.y + c.h / 2 : Nat))) ∧
    (∀ (contours : List Contour) (rect : Rect) (p : Int × Int) (W H : Nat),
      (∀ c ∈ contours, c.x + c.w ≤ W ∧ c.y + c.h ≤ H ∧ 0 < c.w ∧ 0 < c.h) →
      collect_dog contours rect = some p →
      ∃ rx ry : Nat, rx < W ∧ ry < H ∧ p = (rect.x + rx, rect.y + ry)) ∧
    (∀ (screen : Image) (rect : Rect) (p : Int × Int),
      collect_button screen rect = .ok (some p) →
      ∃ x y : Nat, x < screen.width ∧ y + 9 < screen.height ∧
        searchStart screen.height ≤ y ∧
        p = (rect.x + (x + 10 : Nat), rect.y + (y + 5 : Nat))) ∧
    collect_green exImgC2 exRectC2 = some (120, 90) := by
  refine ⟨?_, ?_, ?_, ?_, ?_, by decide⟩
  · intro screen rect p h
    unfold collect_green at h
    rcases Option.map_eq_some'.mp h with ⟨q, hq, rfl⟩
    rcases collect_green_rel_charact hq with ⟨_, _, h3, h4, _, _⟩
    exact ⟨q.1, q.2, h3, h4, rfl⟩
  · intro screen rect p h
    unfold collect_freeze at h
    rcases Option.map_eq_some'.mp h with ⟨q, hq, rfl⟩
    rcases collect_freeze_rel_charact hq with ⟨_, _, h3, h4, _⟩
    exact ⟨q.1, q.2, h3, h4, rfl⟩
  · intro contours rect p h
    unfold collect_dog at h
    rcases Option.map_eq_some'.mp h with ⟨q, hq, rfl⟩
    rcases collect_dog_rel_eq_some hq with ⟨c, hm, _, rfl⟩
    exact ⟨c, hm, rfl⟩
  · intro contours rect p W H hbox h
    unfold collect_dog at h
    rcases Option.map_eq_some'.mp h with ⟨q, hq, rfl⟩
    rcases collect_dog_rel_eq_some hq with ⟨c, hm, _, rfl⟩
    rcases hbox c hm with ⟨h1, h2, h3, h4⟩
    exact ⟨c.x + c.w / 2, c.y + c.h / 2, by omega, by omega, rfl⟩
  · intro screen rect p h
    unfold collect_button at h
    split at h
    · exact absurd h (by simp)
    · exact absurd h (by simp)
    · rename_i x y heq
      rcases collect_button_rel_sound heq with ⟨h1, _, h3, _, h5, _⟩
      refine ⟨x, y, h3, (h5 9 (by omega) (by omega)).1, h1, ?_⟩
      exact (Option.some.inj (Except.ok.inj h)).symm

/-- C2 witness: the green conjunct applied to the coordinate-mapping
example snapshot, and the face-detector in-bounds conjunct applied to a
concrete accepted contour (box `(5, 7, 30, 34)`, area 1000) inside a
400×300 image. -/
theorem coord_mapping_amended_witness :
    (∃ x y : Nat, x < exImgC2.width ∧ y < exImgC2.height ∧
      ((120, 90) : Int × Int) = (exRectC2.x + x, exRectC2.y + y)) ∧
    ∃ rx ry : Nat, rx < 400 ∧ ry < 300 ∧
      ((120, 74) : Int × Int) = (exRectC2.x + rx, exRectC2.y + ry) :=
  ⟨coord_mapping_amended.1 exImgC2 exRectC2 (120, 90) (by decide),
    coord_mapping_amended.2.2.2.1 [⟨1000, 5, 7, 30, 34⟩] exRectC2 (120, 74) 400 300
      (by decide) (by decide)⟩

/-- C2 counterexample: on `exImgEdge` (width 5) with
`rect = (100, 50, 5, 40)` the button detector hits at `(4, 30)` and
reports absolute `(114, 85)`, whose window-relative x-coordinate
`114 - 100 = 14` lies outside `[0, width) = [0, 5)` — refuting the
claim that every detector's relative point lies inside
`[0, width) × [0, height)`. -/
theorem coord_mapping_counterexample :
    collect_button exImgEdge exRectEdge = .ok (some (114, 85)) ∧
      exRectEdge.x = 100 ∧ exImgEdge.width = 5 ∧
      ¬((114 : Int) - exRectEdge.x < (exImgEdge.width : Int)) := by
  refine ⟨rfl, rfl, rfl, by decide⟩

/-- C5 (amended): any hit `(x, y)` the button scan reports lies in the
bottom quarter and satisfies: pure white at `(x, y)` and at the nine
pixels below it, and the neighbour disjunction exactly as coded —
`x + 1` is pure black when `x` is not the last column, OR `x - 1` is
pure black when `x > 0` (the `x - 1` alternative is available for every
`x > 0`, not only the last column); and a vertical run of only 9
consecutive white pixels with an adjacent black column (`exImgNine`)
triggers no detection. -/
theorem button_trigger_sound :
    (∀ (screen : Image) (x y : Nat),
      collect_button_rel screen = .ok (some (x, y)) →
      searchStart screen.height ≤ y ∧ y < screen.height ∧ x < screen.width ∧
        screen.pix x y = buttonColor ∧
        (∀ o, 1 ≤ o → o ≤ 9 → y + o < screen.height ∧
          screen.pix x (y + o) = buttonColor) ∧
        ((x < screen.width - 1 ∧ screen.pix (x + 1) y = textColor) ∨
          (0 < x ∧ screen.pix (x - 1) y = textColor))) ∧
    collect_button_rel exImgNine = .ok none :=
  ⟨fun _ _ _ h => collect_button_rel_sound h, rfl⟩

/-- C5 witness: the soundness direction applied to the concrete hit of
`exImgMid`. -/
theorem button_trigger_sound_witness :
    searchStart exImgMid.height ≤ 30 ∧ 30 < exImgMid.height ∧
      (1 : Nat) < exImgMid.width ∧ exImgMid.pix 1 30 = buttonColor := by
  have H := button_trigger_sound.1 exImgMid 1 30 rfl
  exact ⟨H.1, H.2.1, H.2.2.1, H.2.2.2.1⟩

/-- C5 counterexample: on `exImgMid` the detector triggers at `(1, 30)`
although `x = 1` is not the last column and the preferred neighbour
`(2, 30)` is NOT black — the code accepts the black `x - 1` neighbour
for any `x > 0`, refuting the claim that `x - 1` is consulted only when
`x` is the last column. -/
theorem button_neighbor_counterexample :
    collect_button_rel exImgMid = .ok (some (1, 30)) ∧
      exImgMid.pix 2 30 ≠ textColor ∧
      (1 : Nat) < exImgMid.width - 1 := by
  refine ⟨rfl, by decide, by decide⟩

/-- C7 counterexample: on `exEnvBoth` the green and freeze detectors
both find a match in the same tick, and since each one performs its own
pointer action as a side effect, the tick performs TWO pointer actions
— refuting "at most one pointer action per tick". -/
theorem single_click_counterexample :
    clickCount (tick exEnvBoth).1 = 2 ∧ ¬(clickCount (tick exEnvBoth).1 ≤ 1) := by
  refine ⟨rfl, by decide⟩

/-- C7 (amended): each invoked detector performs at most one pointer
action per Active tick — the tick's total pointer-action count is
exactly one per matching invoked detector (green, freeze, dog when
enabled, button only when green missed), hence at most three per tick;
but several detectors matching on the same snapshot each perform their
own action. -/
theorem tick_click_count (env : Env) :
    clickCount (tick env).1 =
      optClicks (collect_green env.screenshot env.rect) +
        optClicks (collect_freeze env.screenshot env.rect) +
        (if env.collectDogs then optClicks (collect_dog env.contours env.rect) else 0) +
        (if (collect_green env.screenshot env.rect).isSome then 0
          else btnClicks (collect_button env.screenshot env.rect)) ∧
      clickCount (tick env).1 ≤ 3 := by
  have hmain : clickCount (tick env).1 =
      optClicks (collect_green env.screenshot env.rect) +
        optClicks (collect_freeze env.screenshot env.rect) +
        (if env.collectDogs then optClicks (collect_dog env.contours env.rect) else 0) +
        (if (collect_green env.screenshot env.rect).isSome then 0
          else btnClicks (collect_button env.screenshot env.rect)) := by
    show clickCount ([Event.capture, Event.call Det.green]
        ++ clickEvts (collect_green env.screenshot env.rect)
        ++ ([Event.call Det.freeze] ++ clickEvts (collect_freeze env.screenshot env.rect))
        ++ tickDog env ++ (tickBtn env (collect_green env.screenshot env.rect)).1) = _
    simp only [clickCount_append, clickCount_capture_cons, clickCount_call_cons,
      clickCount_clickEvts, clickCount_tickDog, clickCount_tickBtn, clickCount_nil]
    omega
  refine ⟨hmain, ?_⟩
  rw [hmain]
  have h2 := optClicks_le_one (collect_freeze env.screenshot env.rect)
  have h3 : (if env.collectDogs then optClicks (collect_dog env.contours env.rect) else 0) ≤ 1 := by
    split
    · exact optClicks_le_one _
    · omega
  by_cases hg : (collect_green env.screenshot env.rect).isSome
  · rw [if_pos hg]
    have h1 := optClicks_le_one (collect_green env.screenshot env.rect)
    omega
  · rw [if_neg hg]
    have h1 : optClicks (collect_green env.screenshot env.rect) = 0 := by
      rw [Option.not_isSome_iff_eq_none.mp hg]
      rfl
    have h4 := btnClicks_le_one (collect_button env.screenshot env.rect)
    omega

/-- C8: the debounce property of `handle_input` in the timed poll model:
if the toggle key is held at the time of poll `i` (so poll `i` performs
a recognized transition), then any poll `j ≥ i` whose start time still
lies within the debounce window of poll `i` is poll `i` itself, and the
pause flag flips exactly once there.  Cooperative suspension is built
into the model: a transition advances the clock by the full debounce
interval before the next poll can sample anything, so no key events are
sampled and no capture or detection runs inside the window. -/
theorem debounce_single_flip (k : KeyTrace) (gap : Nat) (st0 : PollState)
    (i j : Nat) (hij : i ≤ j)
    (hheld : k.pAt (stateAt k gap st0 i).time = true)
    (hwin : (stateAt k gap st0 j).time < (stateAt k gap st0 i).time + debounceMs) :
    j = i ∧ flipAt k gap st0 i = true := by
  have hflip : (stateAt k gap st0 (i + 1)).paused ≠ (stateAt k gap st0 i).paused := by
    show (pollOnce k gap (stateAt k gap st0 i)).paused ≠ (stateAt k gap st0 i).paused
    simp only [pollOnce]
    exact (inputStep_ne_iff ..).mpr (by simp [hheld])
  have hji : j = i := by
    by_contra hne
    have hlt : i + 1 ≤ j := Nat.lt_of_le_of_ne hij (Ne.symm hne)
    have h1 : (stateAt k gap st0 (i + 1)).time =
        (stateAt k gap st0 i).time + debounceMs :=
      pollOnce_time_of_flip hflip
    have h2 := stateAt_time_mono k gap st0 hlt
    rw [h1] at h2
    omega
  exact ⟨hji, bne_iff_ne.mpr hflip⟩

/-- C8 witness: with the toggle key held from time 0, the first poll
flips the flag and is the only poll inside its own debounce window. -/
theorem debounce_single_flip_witness :
    0 = 0 ∧ flipAt exKeys 0 ⟨true, 0⟩ 0 = true :=
  debounce_single_flip exKeys 0 ⟨true, 0⟩ 0 0 (Nat.le_refl 0) rfl (by decide)

end Blum
